import Mathlib

/-!
Shallow embedding of the workflow DAG executor of FiWriter-Joplin
(src/src/workflows/dag-runner.ts together with the workflow types of
src/src/core/types.ts), and theorems settling the frozen claims about it.

Modelling conventions:
* The open TypeScript state record is modelled as a payload of an arbitrary
  type together with the one engine-recognized field, the reserved pause
  marker.  The marker is a Bool: false stands for "absent or falsy",
  true for "present and truthy"; the TypeScript delete of the field
  corresponds to setting it to false (the executor only ever reads its
  truthiness and deletes it).
* A step function or a progress callback that may throw is modelled with
  Except String (the thrown error message); node step functions receive the
  shared read-only context in TypeScript, and any dependence on it is folded
  into the Lean function.
* The cancellation token is external mutable state read at discrete points;
  it is modelled as a stream of answers to the successive aborted reads,
  indexed by a read counter threaded through the loop.
* The run output carries, besides the result record of the source, two ghost
  instrumentation fields: the list of breakpoint handler invocations (node
  id and the state handed to the handler, in order) and the trace of
  assignments to the runner status field, in order.  They record events of
  the run and influence nothing.
-/

namespace FiWriter

abbrev WorkflowNodeId := String

inductive WorkflowStatus
  | idle
  | running
  | paused
  | completed
  | error
  | cancelled
deriving DecidableEq

/-- The workflow state: pipeline payload plus the reserved pause marker. -/
structure WorkflowState (α : Type) where
  data : α
  breakpoint : Bool
deriving DecidableEq

/-- A workflow node, as in types.ts: id, display name, and the step function
(which may throw, modelled by Except). -/
structure WorkflowNode (α : Type) where
  id : WorkflowNodeId
  name : String
  execute : WorkflowState α → Except String (WorkflowState α)

/-- A directed edge with an optional traversal condition. -/
structure WorkflowEdge (α : Type) where
  «from» : WorkflowNodeId
  «to» : WorkflowNodeId
  condition : Option (WorkflowState α → Bool)

/-- The workflow graph, as in types.ts. -/
structure WorkflowGraph (α : Type) where
  id : String
  name : String
  entryNode : WorkflowNodeId
  nodes : List (WorkflowNode α)
  edges : List (WorkflowEdge α)
  maxIterations : Option Nat

/-- The run-scoped controls of WorkflowContext that the executor itself
reads: the cancellation signal (a stream of answers to successive aborted
reads), the optional progress callback (which may throw) and the optional
breakpoint handler.  The external collaborators of the context are only
touched from inside step functions and are folded into those. -/
structure WorkflowContext (α : Type) where
  signal : Option (Nat → Bool)
  onProgress : Option (WorkflowNodeId → WorkflowState α → Except String Unit)
  onBreakpoint : Option (WorkflowNodeId → WorkflowState α → WorkflowState α)

/-- The result record returned by run. -/
structure WorkflowRunResult (α : Type) where
  status : WorkflowStatus
  finalState : WorkflowState α
  nodesVisited : List WorkflowNodeId
  error : Option String
deriving DecidableEq

/-- The run result together with the ghost instrumentation: the breakpoint
handler invocations and the trace of status-field assignments. -/
structure RunOutput (α : Type) where
  result : WorkflowRunResult α
  breakpointCalls : List (WorkflowNodeId × WorkflowState α)
  statusTrace : List WorkflowStatus
deriving DecidableEq

def DEFAULT_MAX_ITERATIONS : Nat := 50

/-- DAGRunner.findNode: first node of the graph with the given id. -/
def findNode (g : WorkflowGraph α) (id : WorkflowNodeId) :
    Option (WorkflowNode α) :=
  g.nodes.find? (fun n => n.id == id)

/-- The filter predicate of resolveNextNode: the edge leaves fromId. -/
def edgeFrom (fromId : WorkflowNodeId) (e : WorkflowEdge α) : Bool :=
  e.«from» == fromId

/-- The scan predicate of resolveNextNode: the condition is present and
evaluates true on the state. -/
def edgeCondHolds (state : WorkflowState α) (e : WorkflowEdge α) : Bool :=
  match e.condition with
  | some c => c state
  | none => false

/-- The fallback predicate of resolveNextNode: the edge has no condition. -/
def edgeUncond (e : WorkflowEdge α) : Bool :=
  e.condition.isNone

/-- DAGRunner.resolveNextNode: among the edges leaving fromId in declaration
order, the first whose condition is present and true wins; otherwise the
first unconditioned edge; otherwise none (terminal). -/
def resolveNextNode (g : WorkflowGraph α) (fromId : WorkflowNodeId)
    (state : WorkflowState α) : Option WorkflowNodeId :=
  let edges := g.edges.filter (edgeFrom fromId)
  if edges.isEmpty then
    none
  else
    match edges.find? (edgeCondHolds state) with
    | some e => some e.«to»
    | none =>
      match edges.find? edgeUncond with
      | some e => some e.«to»
      | none => none

/-- One read of context.signal?.aborted, at read index k. -/
def checkAborted (ctx : WorkflowContext α) (k : Nat) : Bool :=
  match ctx.signal with
  | none => false
  | some f => f k

/-- The progress callback invocation: absent callbacks are a no-op, present
ones may throw. -/
def runProgress (ctx : WorkflowContext α) (id : WorkflowNodeId)
    (state : WorkflowState α) : Except String Unit :=
  match ctx.onProgress with
  | none => Except.ok ()
  | some p => p id state

/-- The while loop of DAGRunner.run together with the post-loop status
dispatch.  fuel is maxIter minus the iterations already performed, so the
loop guard iterations < maxIter is fuel > 0 and the post-loop test
iterations >= maxIter is fuel = 0 (run starts the loop with fuel = maxIter).
sigCount counts the aborted reads performed so far. -/
def runLoop (g : WorkflowGraph α) (ctx : WorkflowContext α) (maxIter : Nat) :
    Nat → Option WorkflowNodeId → WorkflowState α → List WorkflowNodeId →
    Nat → List (WorkflowNodeId × WorkflowState α) → List WorkflowStatus →
    RunOutput α
  | 0, _, state, visited, _, bp, tr =>
      { result := { status := WorkflowStatus.error, finalState := state,
                    nodesVisited := visited,
                    error := some ("Max iterations (" ++ toString maxIter
                      ++ ") exceeded") },
        breakpointCalls := bp, statusTrace := tr ++ [WorkflowStatus.error] }
  | _ + 1, none, state, visited, _, bp, tr =>
      { result := { status := WorkflowStatus.completed, finalState := state,
                    nodesVisited := visited, error := none },
        breakpointCalls := bp,
        statusTrace := tr ++ [WorkflowStatus.completed] }
  | fuel + 1, some currentNodeId, state, visited, sigCount, bp, tr =>
      if checkAborted ctx sigCount then
        { result := { status := WorkflowStatus.cancelled, finalState := state,
                      nodesVisited := visited, error := none },
          breakpointCalls := bp,
          statusTrace := tr ++ [WorkflowStatus.cancelled] }
      else
        match findNode g currentNodeId with
        | none =>
            { result := { status := WorkflowStatus.error, finalState := state,
                          nodesVisited := visited,
                          error := some ("Node not found: " ++ currentNodeId) },
              breakpointCalls := bp,
              statusTrace := tr ++ [WorkflowStatus.error] }
        | some node =>
            match node.execute state with
            | Except.error msg =>
                { result := { status := WorkflowStatus.error,
                              finalState := state,
                              nodesVisited := visited ++ [currentNodeId],
                              error := some msg },
                  breakpointCalls := bp,
                  statusTrace := tr ++ [WorkflowStatus.error] }
            | Except.ok state1 =>
                match runProgress ctx currentNodeId state1 with
                | Except.error msg =>
                    { result := { status := WorkflowStatus.error,
                                  finalState := state1,
                                  nodesVisited := visited ++ [currentNodeId],
                                  error := some msg },
                      breakpointCalls := bp,
                      statusTrace := tr ++ [WorkflowStatus.error] }
                | Except.ok _ =>
                    match ctx.onBreakpoint, state1.breakpoint with
                    | some handler, true =>
                        let state2 : WorkflowState α :=
                          { state1 with breakpoint := false }
                        let state3 := handler currentNodeId state2
                        if checkAborted ctx (sigCount + 1) then
                          { result := { status := WorkflowStatus.cancelled,
                                        finalState := state3,
                                        nodesVisited :=
                                          visited ++ [currentNodeId],
                                        error := none },
                            breakpointCalls :=
                              bp ++ [(currentNodeId, state2)],
                            statusTrace := tr ++ [WorkflowStatus.paused,
                              WorkflowStatus.running,
                              WorkflowStatus.cancelled] }
                        else
                          runLoop g ctx maxIter fuel
                            (resolveNextNode g currentNodeId state3) state3
                            (visited ++ [currentNodeId]) (sigCount + 2)
                            (bp ++ [(currentNodeId, state2)])
                            (tr ++ [WorkflowStatus.paused,
                              WorkflowStatus.running])
                    | _, _ =>
                        runLoop g ctx maxIter fuel
                          (resolveNextNode g currentNodeId state1) state1
                          (visited ++ [currentNodeId]) (sigCount + 1) bp tr

/-- DAGRunner.run: initialize and enter the loop.  The status field is
assigned running before the loop; every later assignment is appended to the
ghost statusTrace. -/
def run (g : WorkflowGraph α) (initialState : WorkflowState α)
    (ctx : WorkflowContext α) : RunOutput α :=
  let maxIter := g.maxIterations.getD DEFAULT_MAX_ITERATIONS
  runLoop g ctx maxIter maxIter (some g.entryNode) initialState [] 0 []
    [WorkflowStatus.running]

/-! Concrete fixtures over the payload type Nat, used by the
counterexamples and the witnesses below. -/

/-- The payload-0 state without the pause marker. -/
def s0 : WorkflowState Nat := { data := 0, breakpoint := false }

/-- A context with no signal, no progress callback and no breakpoint
handler. -/
def ctx0 : WorkflowContext Nat :=
  { signal := none, onProgress := none, onBreakpoint := none }

/-- A node that returns its input state unchanged. -/
def nodeId0 (id : WorkflowNodeId) : WorkflowNode Nat :=
  { id := id, name := id, execute := fun s => Except.ok s }

/-- A node that requests a pause: it sets the reserved marker on the state
it returns. -/
def nodePause (id : WorkflowNodeId) : WorkflowNode Nat :=
  { id := id, name := id,
    execute := fun s => Except.ok { s with breakpoint := true } }

/-- A single-node graph (no outgoing edges) with maxIterations = 1. -/
def gSingle1 : WorkflowGraph Nat :=
  { id := "g1", name := "g1", entryNode := "a", nodes := [nodeId0 "a"],
    edges := [], maxIterations := some 1 }

/-- A single-node graph (no outgoing edges) with the default iteration
bound. -/
def gSingleD : WorkflowGraph Nat :=
  { id := "gd", name := "gd", entryNode := "a", nodes := [nodeId0 "a"],
    edges := [], maxIterations := none }

/-- A single-node graph whose node sets the pause marker, default bound. -/
def gPause : WorkflowGraph Nat :=
  { id := "gp", name := "gp", entryNode := "a", nodes := [nodePause "a"],
    edges := [], maxIterations := none }

/-- A two-node cycle a -> b -> a with no exit edge, maxIterations = 5. -/
def gCycle : WorkflowGraph Nat :=
  { id := "gc", name := "gc", entryNode := "a",
    nodes := [nodeId0 "a", nodeId0 "b"],
    edges := [{ «from» := "a", «to» := "b", condition := none },
              { «from» := "b", «to» := "a", condition := none }],
    maxIterations := some 5 }

example : (run gSingleD s0 ctx0).result.status = WorkflowStatus.completed :=
  rfl
example : (run gSingleD s0 ctx0).result.nodesVisited = ["a"] := rfl
example : (run gSingle1 s0 ctx0).result.status = WorkflowStatus.error := rfl
example : (run gSingle1 s0 ctx0).result.error
    = some ("Max iterations (" ++ toString 1 ++ ") exceeded") := rfl
example : (run gCycle s0 ctx0).result.status = WorkflowStatus.error := rfl
example : (run gCycle s0 ctx0).result.nodesVisited
    = ["a", "b", "a", "b", "a"] := rfl
example : (run gPause s0 ctx0).result.status = WorkflowStatus.completed :=
  rfl
example : (run gPause s0 ctx0).result.finalState.breakpoint = true := rfl

/-! Helper lemmas about List.find? on a list split around its first
match. -/

theorem find?_split_first {β : Type} (p : β → Bool) (l1 l2 : List β) (e : β)
    (h1 : ∀ x ∈ l1, p x = false) (he : p e = true) :
    (l1 ++ e :: l2).find? p = some e := by
  induction l1 with
  | nil => simp [List.find?, he]
  | cons a l ih =>
      have ha : p a = false := h1 a (by simp)
      have ihh := ih (fun x hx => h1 x (by simp [hx]))
      simp [List.find?, ha, ihh]

theorem find?_all_false {β : Type} (p : β → Bool) (l : List β)
    (h : ∀ x ∈ l, p x = false) : l.find? p = none := by
  induction l with
  | nil => rfl
  | cons a l ih =>
      have ha : p a = false := h a (by simp)
      have ihh := ih (fun x hx => h x (by simp [hx]))
      simp [List.find?, ha, ihh]

/-- C4: edge resolution.  With E the edges leaving fromId in declaration
order: no such edge gives none; the first edge of E (in declaration order)
whose condition is present and true gives its target, irrespective of any
unconditioned edges declared earlier; if no conditioned edge matches, the
first unconditioned edge of E gives its target; otherwise none. -/
theorem resolveNextNode_spec (g : WorkflowGraph α) (fromId : WorkflowNodeId)
    (state : WorkflowState α) :
    ((∀ e ∈ g.edges, edgeFrom fromId e = false) →
      resolveNextNode g fromId state = none)
    ∧ (∀ l1 e l2, g.edges.filter (edgeFrom fromId) = l1 ++ e :: l2 →
        (∀ x ∈ l1, edgeCondHolds state x = false) →
        edgeCondHolds state e = true →
        resolveNextNode g fromId state = some e.«to»)
    ∧ (∀ l1 e l2, g.edges.filter (edgeFrom fromId) = l1 ++ e :: l2 →
        (∀ x ∈ g.edges.filter (edgeFrom fromId),
          edgeCondHolds state x = false) →
        (∀ x ∈ l1, edgeUncond x = false) →
        edgeUncond e = true →
        resolveNextNode g fromId state = some e.«to»)
    ∧ ((∀ x ∈ g.edges.filter (edgeFrom fromId),
          edgeCondHolds state x = false ∧ edgeUncond x = false) →
      resolveNextNode g fromId state = none) := by
  refine ⟨?_, ?_, ?_, ?_⟩
  · intro h
    have hE : g.edges.filter (edgeFrom fromId) = [] :=
      List.filter_eq_nil_iff.mpr (fun e he => by simp [h e he])
    simp [resolveNextNode, hE]
  · intro l1 e l2 hE h1 he
    have hfind : (g.edges.filter (edgeFrom fromId)).find?
        (edgeCondHolds state) = some e := by
      rw [hE]; exact find?_split_first _ l1 l2 e h1 he
    have hne : (g.edges.filter (edgeFrom fromId)).isEmpty = false := by
      rw [hE]; simp
    simp [resolveNextNode, hne, hfind]
  · intro l1 e l2 hE hall h1 he
    have hcond : (g.edges.filter (edgeFrom fromId)).find?
        (edgeCondHolds state) = none := find?_all_false _ _ hall
    have hfind : (g.edges.filter (edgeFrom fromId)).find? edgeUncond
        = some e := by
      rw [hE]; exact find?_split_first _ l1 l2 e h1 he
    have hne : (g.edges.filter (edgeFrom fromId)).isEmpty = false := by
      rw [hE]; simp
    simp [resolveNextNode, hne, hcond, hfind]
  · intro h
    by_cases hne : (g.edges.filter (edgeFrom fromId)).isEmpty
    · simp [resolveNextNode, hne]
    · have hcond : (g.edges.filter (edgeFrom fromId)).find?
          (edgeCondHolds state) = none :=
        find?_all_false _ _ (fun x hx => (h x hx).1)
      have hunc : (g.edges.filter (edgeFrom fromId)).find? edgeUncond
          = none := find?_all_false _ _ (fun x hx => (h x hx).2)
      simp [resolveNextNode, hne, hcond, hunc]

/-- Edge from a to b, condition true iff the payload is 1 (false on s0). -/
def eA1 : WorkflowEdge Nat :=
  { «from» := "a", «to» := "b", condition := some (fun s => s.data == 1) }

/-- Unconditioned edge from a to c. -/
def eA2 : WorkflowEdge Nat :=
  { «from» := "a", «to» := "c", condition := none }

/-- Unconditioned edge from p to u, declared before the conditioned one. -/
def eP1 : WorkflowEdge Nat :=
  { «from» := "p", «to» := "u", condition := none }

/-- Edge from p to t, condition true iff the payload is 0 (true on s0). -/
def eP2 : WorkflowEdge Nat :=
  { «from» := "p", «to» := "t", condition := some (fun s => s.data == 0) }

/-- A graph holding the four edges above (nodes are irrelevant to edge
resolution). -/
def gEdges : WorkflowGraph Nat :=
  { id := "ge", name := "ge", entryNode := "a", nodes := [],
    edges := [eA1, eA2, eP1, eP2], maxIterations := none }

/-- Witness for C4: from a, the false-conditioned edge loses to the later
unconditioned one; from p, the true-conditioned edge wins over the earlier
unconditioned one; from z, no edge exists and resolution is terminal. -/
theorem resolveNextNode_spec_witness :
    resolveNextNode gEdges "a" s0 = some "c"
    ∧ resolveNextNode gEdges "p" s0 = some "t"
    ∧ resolveNextNode gEdges "z" s0 = none := by
  refine ⟨?_, ?_, ?_⟩
  · exact (resolveNextNode_spec gEdges "a" s0).2.2.1 [eA1] eA2 []
      rfl (by decide) (by decide) (by decide)
  · exact (resolveNextNode_spec gEdges "p" s0).2.1 [eP1] eP2 []
      rfl (by decide) (by decide)
  · exact (resolveNextNode_spec gEdges "z" s0).1 (by decide)

/-- C6: a throwing step.  At any point of a run where the signal is not
aborted, the current node is found and its step throws msg, the run returns
immediately with status error, the thrown message in the error field, the
state as of the last successfully completed step (the state passed into the
failing step), and the trace of visited nodes including the failing node. -/
theorem run_step_throw_result (g : WorkflowGraph α) (ctx : WorkflowContext α)
    (maxIter fuel : Nat) (id : WorkflowNodeId) (node : WorkflowNode α)
    (state : WorkflowState α) (visited : List WorkflowNodeId)
    (sigCount : Nat) (bp : List (WorkflowNodeId × WorkflowState α))
    (tr : List WorkflowStatus) (msg : String)
    (hca : checkAborted ctx sigCount = false)
    (hf : findNode g id = some node)
    (he : node.execute state = Except.error msg) :
    runLoop g ctx maxIter (fuel + 1) (some id) state visited sigCount bp tr
      = { result := { status := WorkflowStatus.error, finalState := state,
                      nodesVisited := visited ++ [id], error := some msg },
          breakpointCalls := bp,
          statusTrace := tr ++ [WorkflowStatus.error] } := by
  simp [runLoop, hca, hf, he]

/-- A node whose step always throws. -/
def nodeThrow (id : WorkflowNodeId) : WorkflowNode Nat :=
  { id := id, name := id, execute := fun _ => Except.error "step failed" }

/-- Two-node graph a -> b where b's step throws, default bound. -/
def gThrow : WorkflowGraph Nat :=
  { id := "gt", name := "gt", entryNode := "a",
    nodes := [nodeId0 "a", nodeThrow "b"],
    edges := [{ «from» := "a", «to» := "b", condition := none }],
    maxIterations := none }

/-- A context whose progress callback always throws. -/
def ctxProg : WorkflowContext Nat :=
  { signal := none,
    onProgress := some (fun _ _ => Except.error "boom"),
    onBreakpoint := none }

/-- A breakpoint handler that replaces the payload with 7. -/
def bpHandler : WorkflowNodeId → WorkflowState Nat → WorkflowState Nat :=
  fun _ s => { s with data := 7 }

/-- A signal stream that is aborted from the second read on. -/
def sigAfterPause : Nat → Bool := fun k => decide (1 ≤ k)

/-- A context with the breakpoint handler above and a signal that becomes
aborted right after the first read. -/
def ctxBp : WorkflowContext Nat :=
  { signal := some sigAfterPause, onProgress := none,
    onBreakpoint := some bpHandler }

/-- A context whose signal is aborted from the start. -/
def ctxAbort : WorkflowContext Nat :=
  { signal := some (fun _ => true), onProgress := none,
    onBreakpoint := none }

/-- Witness for C6: in gThrow, after the a step succeeds, the b step throws
and the run stops with status error, message of the throw, the pre-step
state and the visited trace up to and including b. -/
theorem run_step_throw_result_witness :
    runLoop gThrow ctx0 50 49 (some "b") s0 ["a"] 1 []
        [WorkflowStatus.running]
      = { result := { status := WorkflowStatus.error, finalState := s0,
                      nodesVisited := ["a", "b"],
                      error := some "step failed" },
          breakpointCalls := [],
          statusTrace := [WorkflowStatus.running, WorkflowStatus.error] } :=
  run_step_throw_result gThrow ctx0 50 48 "b" (nodeThrow "b") s0 ["a"] 1 []
    [WorkflowStatus.running] "step failed" rfl rfl rfl

/-- C3 amended: an exception thrown by a configured onProgress callback is
caught by the top-level catch and aborts the run: status error, the
callback's message in the error field, finalState the state produced by the
just-executed node, and the visited trace including that node. -/
theorem run_onProgress_throw_aborts (g : WorkflowGraph α)
    (ctx : WorkflowContext α) (maxIter fuel : Nat) (id : WorkflowNodeId)
    (node : WorkflowNode α) (state state1 : WorkflowState α)
    (visited : List WorkflowNodeId) (sigCount : Nat)
    (bp : List (WorkflowNodeId × WorkflowState α))
    (tr : List WorkflowStatus) (msg : String)
    (hca : checkAborted ctx sigCount = false)
    (hf : findNode g id = some node)
    (he : node.execute state = Except.ok state1)
    (hp : runProgress ctx id state1 = Except.error msg) :
    runLoop g ctx maxIter (fuel + 1) (some id) state visited sigCount bp tr
      = { result := { status := WorkflowStatus.error, finalState := state1,
                      nodesVisited := visited ++ [id], error := some msg },
          breakpointCalls := bp,
          statusTrace := tr ++ [WorkflowStatus.error] } := by
  simp [runLoop, hca, hf, he, hp]

/-- Counterexample for C3: on the single-node graph the run completes under
a silent context, but the same run under a throwing onProgress callback
ends with status error carrying the callback's message — the callback can
turn a run into status error. -/
theorem run_onProgress_throw_cex :
    (run gSingleD s0 ctx0).result.status = WorkflowStatus.completed
    ∧ (run gSingleD s0 ctxProg).result.status = WorkflowStatus.error
    ∧ (run gSingleD s0 ctxProg).result.error = some "boom" :=
  ⟨rfl, rfl, rfl⟩

/-- Helper: one loop iteration in which the signal is quiet, the node is
found, its step succeeds, the progress callback succeeds and no breakpoint
handler is configured, continues the loop with the step's state as is. -/
theorem runLoop_step_no_bp (g : WorkflowGraph α)
    (ctx : WorkflowContext α) (maxIter fuel : Nat) (id : WorkflowNodeId)
    (node : WorkflowNode α) (state state1 : WorkflowState α)
    (visited : List WorkflowNodeId) (sigCount : Nat)
    (bp : List (WorkflowNodeId × WorkflowState α))
    (tr : List WorkflowStatus)
    (hca : checkAborted ctx sigCount = false)
    (hf : findNode g id = some node)
    (he : node.execute state = Except.ok state1)
    (hp : runProgress ctx id state1 = Except.ok ())
    (hb : ctx.onBreakpoint = none) :
    runLoop g ctx maxIter (fuel + 1) (some id) state visited sigCount bp tr
      = runLoop g ctx maxIter fuel (resolveNextNode g id state1) state1
          (visited ++ [id]) (sigCount + 1) bp tr := by
  simp [runLoop, hca, hf, he, hp, hb]

/-- C2 amended: when no onBreakpoint handler is configured, the breakpoint
block is skipped entirely — the pause marker is not cleared — and the run
continues with the state exactly as the node returned it (marker included)
feeding the edge conditions and the rest of the run; no handler invocation
is recorded. -/
theorem run_no_handler_skips_marker (g : WorkflowGraph α)
    (ctx : WorkflowContext α) (maxIter fuel : Nat) (id : WorkflowNodeId)
    (node : WorkflowNode α) (state state1 : WorkflowState α)
    (visited : List WorkflowNodeId) (sigCount : Nat)
    (bp : List (WorkflowNodeId × WorkflowState α))
    (tr : List WorkflowStatus)
    (hca : checkAborted ctx sigCount = false)
    (hf : findNode g id = some node)
    (he : node.execute state = Except.ok state1)
    (hp : runProgress ctx id state1 = Except.ok ())
    (hb : ctx.onBreakpoint = none) :
    runLoop g ctx maxIter (fuel + 1) (some id) state visited sigCount bp tr
      = runLoop g ctx maxIter fuel (resolveNextNode g id state1) state1
          (visited ++ [id]) (sigCount + 1) bp tr :=
  runLoop_step_no_bp g ctx maxIter fuel id node state state1 visited
    sigCount bp tr hca hf he hp hb

/-- Witness for the amended C2: the marker-setting node without a handler
continues the loop with the marker still set on the state. -/
theorem run_no_handler_skips_marker_witness :
    runLoop gPause ctx0 50 50 (some "a") s0 [] 0 [] [WorkflowStatus.running]
      = runLoop gPause ctx0 50 49
          (resolveNextNode gPause "a" { data := 0, breakpoint := true })
          { data := 0, breakpoint := true } ["a"] 1 []
          [WorkflowStatus.running] :=
  run_no_handler_skips_marker gPause ctx0 50 49 "a" (nodePause "a") s0
    { data := 0, breakpoint := true } [] 0 [] [WorkflowStatus.running]
    rfl rfl rfl rfl rfl

/-- Witness for the amended C3: on the single-node graph, the throwing
progress callback aborts the run with its message. -/
theorem run_onProgress_throw_aborts_witness :
    runLoop gSingleD ctxProg 50 50 (some "a") s0 [] 0 []
        [WorkflowStatus.running]
      = { result := { status := WorkflowStatus.error, finalState := s0,
                      nodesVisited := ["a"], error := some "boom" },
          breakpointCalls := [],
          statusTrace := [WorkflowStatus.running, WorkflowStatus.error] } :=
  run_onProgress_throw_aborts gSingleD ctxProg 50 49 "a" (nodeId0 "a") s0
    s0 [] 0 [] [WorkflowStatus.running] "boom" rfl rfl rfl rfl

/-- Counterexample for C2: the pause-marker-setting single-node graph run
with no onBreakpoint handler completes with the marker still present (and
truthy) in the returned finalState — the marker is not cleared. -/
theorem run_no_handler_marker_kept_cex :
    (run gPause s0 ctx0).result.status = WorkflowStatus.completed
    ∧ (run gPause s0 ctx0).result.finalState.breakpoint = true
    ∧ (run gPause s0 ctx0).breakpointCalls = [] :=
  ⟨rfl, rfl, rfl⟩

/-- C7: a signal already aborted at the first read makes run return
immediately: status cancelled, no error, empty visited trace (the push into
the trace precedes every step invocation, so no step ran), and finalState
the (copy of the) initial state.  The effective iteration bound must be at
least 1, as the data model requires, for the loop to be entered at all. -/
theorem run_preaborted_cancelled (g : WorkflowGraph α)
    (s : WorkflowState α) (ctx : WorkflowContext α)
    (hca : checkAborted ctx 0 = true)
    (hmi : 1 ≤ g.maxIterations.getD DEFAULT_MAX_ITERATIONS) :
    run g s ctx
      = { result := { status := WorkflowStatus.cancelled, finalState := s,
                      nodesVisited := [], error := none },
          breakpointCalls := [],
          statusTrace := [WorkflowStatus.running,
            WorkflowStatus.cancelled] } := by
  have h0 : g.maxIterations.getD DEFAULT_MAX_ITERATIONS ≠ 0 := by omega
  obtain ⟨k, hk⟩ := Nat.exists_eq_succ_of_ne_zero h0
  simp only [run, hk]
  simp [runLoop, hca]

/-- Witness for C7: the single-node graph under an always-aborted signal is
cancelled with nothing visited. -/
theorem run_preaborted_cancelled_witness :
    run gSingleD s0 ctxAbort
      = { result := { status := WorkflowStatus.cancelled, finalState := s0,
                      nodesVisited := [], error := none },
          breakpointCalls := [],
          statusTrace := [WorkflowStatus.running,
            WorkflowStatus.cancelled] } :=
  run_preaborted_cancelled gSingleD s0 ctxAbort rfl (by decide)

/-- C5: the breakpoint protocol with a configured handler.  When a step
returns a state with the pause marker set, the status trace gains paused
(then running again), the handler is invoked exactly once with the node's
id and the pre-pause state with the marker removed (recorded as exactly one
new entry of breakpointCalls), the handler's returned state fully replaces
the pre-pause state for the rest of the run, and the signal is re-read
right after the handler: if it is then aborted the run stops with status
cancelled and finalState the handler's returned state, else the loop
continues from the handler's returned state. -/
theorem run_breakpoint_protocol (g : WorkflowGraph α)
    (ctx : WorkflowContext α) (maxIter fuel : Nat) (id : WorkflowNodeId)
    (node : WorkflowNode α) (state state1 : WorkflowState α)
    (handler : WorkflowNodeId → WorkflowState α → WorkflowState α)
    (visited : List WorkflowNodeId) (sigCount : Nat)
    (bp : List (WorkflowNodeId × WorkflowState α))
    (tr : List WorkflowStatus)
    (hca : checkAborted ctx sigCount = false)
    (hf : findNode g id = some node)
    (he : node.execute state = Except.ok state1)
    (hp : runProgress ctx id state1 = Except.ok ())
    (hb : ctx.onBreakpoint = some handler)
    (hm : state1.breakpoint = true) :
    runLoop g ctx maxIter (fuel + 1) (some id) state visited sigCount bp tr
      = if checkAborted ctx (sigCount + 1) then
          { result := { status := WorkflowStatus.cancelled,
                        finalState :=
                          handler id { state1 with breakpoint := false },
                        nodesVisited := visited ++ [id], error := none },
            breakpointCalls :=
              bp ++ [(id, { state1 with breakpoint := false })],
            statusTrace := tr ++ [WorkflowStatus.paused,
              WorkflowStatus.running, WorkflowStatus.cancelled] }
        else
          runLoop g ctx maxIter fuel
            (resolveNextNode g id
              (handler id { state1 with breakpoint := false }))
            (handler id { state1 with breakpoint := false })
            (visited ++ [id]) (sigCount + 2)
            (bp ++ [(id, { state1 with breakpoint := false })])
            (tr ++ [WorkflowStatus.paused, WorkflowStatus.running]) := by
  simp [runLoop, hca, hf, he, hp, hb, hm]

/-- Witness for C5: the pause-marker-setting node under the handler context
whose signal aborts right after the pause pauses once (handler called once
with the marker-stripped state), and the run is cancelled with the
handler's returned state as finalState. -/
theorem run_breakpoint_protocol_witness :
    runLoop gPause ctxBp 50 50 (some "a") s0 [] 0 []
        [WorkflowStatus.running]
      = { result := { status := WorkflowStatus.cancelled,
                      finalState := { data := 7, breakpoint := false },
                      nodesVisited := ["a"], error := none },
          breakpointCalls := [("a", { data := 0, breakpoint := false })],
          statusTrace := [WorkflowStatus.running, WorkflowStatus.paused,
            WorkflowStatus.running, WorkflowStatus.cancelled] } := by
  have h := run_breakpoint_protocol gPause ctxBp 50 49 "a" (nodePause "a")
    s0 { s0 with breakpoint := true } bpHandler [] 0 []
    [WorkflowStatus.running] rfl rfl rfl rfl rfl rfl
  simpa [ctxBp, checkAborted, sigAfterPause, bpHandler, s0] using h

/-- Counterexample for C1: in the single-node graph with maxIterations = 1
the entry node is a sink (edge resolution is terminal), so the loop exits
with current null after its only iteration — exactly the
maxIterations-th — yet the run reports status error with the iteration
bound in the message instead of completed. -/
theorem run_maxIter_terminal_errors_cex :
    resolveNextNode gSingle1 "a" s0 = none
    ∧ (run gSingle1 s0 ctx0).result.status = WorkflowStatus.error
    ∧ (run gSingle1 s0 ctx0).result.error
        = some ("Max iterations (" ++ toString 1 ++ ") exceeded")
    ∧ (run gSingle1 s0 ctx0).result.nodesVisited = ["a"] :=
  ⟨rfl, rfl, rfl, rfl⟩

/-- C1 amended: the post-loop dispatch tests only the iteration count.
Whenever the loop ends having performed maxIterations iterations the run
reports status error with the bound in the message, even if the loop also
reached a terminal node (current null) on its last iteration; the run
reports completed exactly when the loop exits with current null before
exhausting the bound.  A single-node graph (no outgoing edges) under the
default bound, a silent context and a non-throwing step completes with
nodesVisited = [entryNode]. -/
theorem runLoop_exit_characterization (g : WorkflowGraph α)
    (ctx : WorkflowContext α) (maxIter : Nat) :
    (∀ cur state visited sigCount bp tr,
      (runLoop g ctx maxIter 0 cur state visited sigCount bp tr).result
        = { status := WorkflowStatus.error, finalState := state,
            nodesVisited := visited,
            error := some ("Max iterations (" ++ toString maxIter
              ++ ") exceeded") })
    ∧ (∀ fuel state visited sigCount bp tr,
      (runLoop g ctx maxIter (fuel + 1) none state visited sigCount bp
          tr).result
        = { status := WorkflowStatus.completed, finalState := state,
            nodesVisited := visited, error := none })
    ∧ (∀ s node state1,
      g.maxIterations = none →
      checkAborted ctx 0 = false →
      findNode g g.entryNode = some node →
      node.execute s = Except.ok state1 →
      runProgress ctx g.entryNode state1 = Except.ok () →
      ctx.onBreakpoint = none →
      g.edges.filter (edgeFrom g.entryNode) = [] →
      (run g s ctx).result
        = { status := WorkflowStatus.completed, finalState := state1,
            nodesVisited := [g.entryNode], error := none }) := by
  refine ⟨fun cur state visited sigCount bp tr => rfl,
    fun fuel state visited sigCount bp tr => rfl,
    fun s node state1 hmi hca hf he hp hb hedges => ?_⟩
  have hnext : resolveNextNode g g.entryNode state1 = none := by
    simp [resolveNextNode, hedges]
  simp only [run, hmi, Option.getD_none, DEFAULT_MAX_ITERATIONS]
  show (runLoop g ctx 50 (49 + 1) (some g.entryNode) s [] 0 []
    [WorkflowStatus.running]).result = _
  rw [runLoop_step_no_bp g ctx 50 49 g.entryNode node s state1 []
    0 [] [WorkflowStatus.running] hca hf he hp hb, hnext]
  rfl

/-- Witness for the amended C1: the single-node graph under the default
bound completes with exactly the entry node visited. -/
theorem runLoop_exit_characterization_witness :
    (run gSingleD s0 ctx0).result
      = { status := WorkflowStatus.completed, finalState := s0,
          nodesVisited := ["a"], error := none } :=
  (runLoop_exit_characterization gSingleD ctx0 50).2.2 s0 (nodeId0 "a") s0
    rfl rfl rfl rfl rfl rfl rfl

/-- Helper for C8: the loop is a congruence in the observable behaviour of
the context — two contexts whose signal streams, progress callbacks and
breakpoint handlers respond identically drive the loop to identical
outputs from identical configurations. -/
theorem runLoop_congr (g : WorkflowGraph α) (ctx1 ctx2 : WorkflowContext α)
    (maxIter : Nat)
    (hsig : ∀ k, checkAborted ctx1 k = checkAborted ctx2 k)
    (hpro : ∀ id st, runProgress ctx1 id st = runProgress ctx2 id st)
    (hbn : ctx1.onBreakpoint = none ↔ ctx2.onBreakpoint = none)
    (hbv : ∀ h1 h2, ctx1.onBreakpoint = some h1 →
      ctx2.onBreakpoint = some h2 → ∀ id st, h1 id st = h2 id st) :
    ∀ fuel cur state visited sigCount bp tr,
      runLoop g ctx1 maxIter fuel cur state visited sigCount bp tr
        = runLoop g ctx2 maxIter fuel cur state visited sigCount bp tr := by
  intro fuel
  induction fuel with
  | zero => intro cur state visited sig bp tr; rfl
  | succ n ih =>
      intro cur state visited sig bp tr
      cases cur with
      | none => rfl
      | some id =>
          simp only [runLoop, hsig, hpro]
          cases hc : checkAborted ctx2 sig with
          | true => simp [hc]
          | false =>
              simp only [hc, Bool.false_eq_true, if_false]
              cases hfind : findNode g id with
              | none => rfl
              | some node =>
                  simp only []
                  cases hexec : node.execute state with
                  | error msg => rfl
                  | ok state1 =>
                      simp only []
                      cases hprog : runProgress ctx2 id state1 with
                      | error msg => rfl
                      | ok u =>
                          cases u
                          simp only []
                          cases hb1 : ctx1.onBreakpoint with
                          | none =>
                              have hb2 : ctx2.onBreakpoint = none :=
                                hbn.mp hb1
                              simp only [hb1, hb2]
                              cases hm : state1.breakpoint <;>
                                exact ih _ _ _ _ _ _
                          | some h1 =>
                              cases hb2 : ctx2.onBreakpoint with
                              | none =>
                                  rw [hbn.mpr hb2] at hb1
                                  exact Option.noConfusion hb1
                              | some h2 =>
                                  cases hm : state1.breakpoint with
                                  | false => exact ih _ _ _ _ _ _
                                  | true =>
                                      simp only []
                                      rw [hbv h1 h2 hb1 hb2 id
                                        { state1 with breakpoint := false }]
                                      cases hc2 : checkAborted ctx2 (sig + 1)
                                        with
                                      | true => simp [hc2]
                                      | false =>
                                          simp only [hc2,
                                            Bool.false_eq_true, if_false]
                                          exact ih _ _ _ _ _ _

/-- C8: determinism.  Runs are pure functions of the graph, the initial
state and the observable behaviour of the context, so two runs from the
same initial state under contexts whose signal streams, progress callbacks
and breakpoint handlers respond identically produce identical outputs — in
particular identical nodesVisited, finalState and status. -/
theorem run_deterministic (g : WorkflowGraph α) (s : WorkflowState α)
    (ctx1 ctx2 : WorkflowContext α)
    (hsig : ∀ k, checkAborted ctx1 k = checkAborted ctx2 k)
    (hpro : ∀ id st, runProgress ctx1 id st = runProgress ctx2 id st)
    (hbn : ctx1.onBreakpoint = none ↔ ctx2.onBreakpoint = none)
    (hbv : ∀ h1 h2, ctx1.onBreakpoint = some h1 →
      ctx2.onBreakpoint = some h2 → ∀ id st, h1 id st = h2 id st) :
    run g s ctx1 = run g s ctx2 :=
  runLoop_congr g ctx1 ctx2 (g.maxIterations.getD DEFAULT_MAX_ITERATIONS)
    hsig hpro hbn hbv _ _ _ _ _ _ _

/-- A context observably identical to ctx0 through a differently
represented (explicitly never-aborted) signal. -/
def ctxQuiet : WorkflowContext Nat :=
  { signal := some (fun _ => false), onProgress := none,
    onBreakpoint := none }

/-- Witness for C8: the cycle graph runs identically under ctx0 and under
the observably equal ctxQuiet. -/
theorem run_deterministic_witness :
    run gCycle s0 ctx0 = run gCycle s0 ctxQuiet :=
  run_deterministic gCycle s0 ctx0 ctxQuiet (fun _ => rfl)
    (fun _ _ => rfl) (Iff.intro (fun _ => rfl) (fun _ => rfl))
    (fun _ _ hh1 _ _ _ => nomatch hh1)

/-- Helper: a successful findNode lookup returns a node of the graph whose
id is the looked-up id. -/
theorem findNode_sound (g : WorkflowGraph α) (id : WorkflowNodeId)
    (node : WorkflowNode α) (h : findNode g id = some node) :
    node ∈ g.nodes ∧ node.id = id := by
  simp only [findNode] at h
  refine ⟨List.mem_of_find?_eq_some h, ?_⟩
  have hp := List.find?_some h
  simpa using hp

/-- Helper: a singleton visited-trace increment names a graph node. -/
theorem mem_singleton_node (g : WorkflowGraph α) (id : WorkflowNodeId)
    (node : WorkflowNode α) (hnode : node ∈ g.nodes ∧ node.id = id) :
    ∀ x ∈ [id], ∃ n, n ∈ g.nodes ∧ n.id = x := by
  intro x hx
  simp only [List.mem_singleton] at hx
  exact ⟨node, hnode.1, hnode.2.trans hx.symm⟩

/-- Helper: one loop iteration with a configured handler but no pause
marker on the step's state skips the breakpoint block and continues. -/
theorem runLoop_step_bp_false (g : WorkflowGraph α)
    (ctx : WorkflowContext α) (maxIter fuel : Nat) (id : WorkflowNodeId)
    (node : WorkflowNode α) (state state1 : WorkflowState α)
    (handler : WorkflowNodeId → WorkflowState α → WorkflowState α)
    (visited : List WorkflowNodeId) (sigCount : Nat)
    (bp : List (WorkflowNodeId × WorkflowState α))
    (tr : List WorkflowStatus)
    (hca : checkAborted ctx sigCount = false)
    (hf : findNode g id = some node)
    (he : node.execute state = Except.ok state1)
    (hp : runProgress ctx id state1 = Except.ok ())
    (hb : ctx.onBreakpoint = some handler)
    (hm : state1.breakpoint = false) :
    runLoop g ctx maxIter (fuel + 1) (some id) state visited sigCount bp tr
      = runLoop g ctx maxIter fuel (resolveNextNode g id state1) state1
          (visited ++ [id]) (sigCount + 1) bp tr := by
  simp [runLoop, hca, hf, he, hp, hb, hm]

/-- Helper: the master shape lemma for the visited trace.  From any loop
configuration the produced trace extends the incoming one by a suffix whose
length is bounded by the fuel, whose every id names a node of the graph,
and which, when non-empty, begins with the current node. -/
theorem runLoop_visited_master (g : WorkflowGraph α)
    (ctx : WorkflowContext α) (maxIter : Nat) :
    ∀ fuel cur state visited sigCount bp tr,
      ∃ rest,
        (runLoop g ctx maxIter fuel cur state visited sigCount bp
          tr).result.nodesVisited = visited ++ rest
        ∧ rest.length ≤ fuel
        ∧ (∀ x ∈ rest, ∃ n, n ∈ g.nodes ∧ n.id = x)
        ∧ (rest = [] ∨ ∃ c r2, rest = c :: r2 ∧ cur = some c) := by
  intro fuel
  induction fuel with
  | zero =>
      intro cur state visited sig bp tr
      exact ⟨[], by simp [runLoop], by simp, by simp, Or.inl rfl⟩
  | succ n ih =>
      intro cur state visited sig bp tr
      cases cur with
      | none =>
          exact ⟨[], by simp [runLoop], by simp, by simp, Or.inl rfl⟩
      | some id =>
          cases hc : checkAborted ctx sig with
          | true =>
              exact ⟨[], by simp [runLoop, hc], by simp, by simp,
                Or.inl rfl⟩
          | false =>
              cases hfind : findNode g id with
              | none =>
                  exact ⟨[], by simp [runLoop, hc, hfind], by simp,
                    by simp, Or.inl rfl⟩
              | some node =>
                  have hnode := findNode_sound g id node hfind
                  cases hexec : node.execute state with
                  | error msg =>
                      exact ⟨[id], by simp [runLoop, hc, hfind, hexec],
                        (Nat.succ_le_succ (Nat.zero_le n)),
                        mem_singleton_node g id node hnode,
                        Or.inr ⟨id, [], rfl, rfl⟩⟩
                  | ok state1 =>
                      cases hprog : runProgress ctx id state1 with
                      | error msg =>
                          exact ⟨[id],
                            by simp [runLoop, hc, hfind, hexec, hprog],
                            (Nat.succ_le_succ (Nat.zero_le n)),
                            mem_singleton_node g id node hnode,
                            Or.inr ⟨id, [], rfl, rfl⟩⟩
                      | ok u =>
                          cases u
                          cases hb1 : ctx.onBreakpoint with
                          | none =>
                              have hstep := runLoop_step_no_bp g ctx
                                maxIter n id node state state1 visited sig
                                bp tr hc hfind hexec hprog hb1
                              obtain ⟨r, hr, hl, hm2, _⟩ := ih
                                (resolveNextNode g id state1) state1
                                (visited ++ [id]) (sig + 1) bp tr
                              refine ⟨id :: r, ?_,
                                (Nat.succ_le_succ hl),
                                ?_, Or.inr ⟨id, r, rfl, rfl⟩⟩
                              · rw [hstep, hr]; simp
                              · intro x hx
                                rcases List.mem_cons.mp hx with h | h
                                · exact ⟨node, hnode.1,
                                    hnode.2.trans h.symm⟩
                                · exact hm2 x h
                          | some handler =>
                              cases hm : state1.breakpoint with
                              | false =>
                                  have hstep := runLoop_step_bp_false g
                                    ctx maxIter n id node state state1
                                    handler visited sig bp tr hc hfind
                                    hexec hprog hb1 hm
                                  obtain ⟨r, hr, hl, hm2, _⟩ := ih
                                    (resolveNextNode g id state1) state1
                                    (visited ++ [id]) (sig + 1) bp tr
                                  refine ⟨id :: r, ?_,
                                    (Nat.succ_le_succ hl),
                                    ?_, Or.inr ⟨id, r, rfl, rfl⟩⟩
                                  · rw [hstep, hr]; simp
                                  · intro x hx
                                    rcases List.mem_cons.mp hx with h | h
                                    · exact ⟨node, hnode.1,
                                        hnode.2.trans h.symm⟩
                                    · exact hm2 x h
                              | true =>
                                  cases hc2 : checkAborted ctx (sig + 1)
                                    with
                                  | true =>
                                      have hstep :
                                          (runLoop g ctx maxIter (n + 1)
                                            (some id) state visited sig bp
                                            tr).result.nodesVisited
                                            = visited ++ [id] := by
                                        simp [runLoop, hc, hfind, hexec,
                                          hprog, hb1, hm, hc2]
                                      exact ⟨[id], hstep,
                                        (Nat.succ_le_succ (Nat.zero_le n)),
                                        mem_singleton_node g id node hnode,
                                        Or.inr ⟨id, [], rfl, rfl⟩⟩
                                  | false =>
                                      have hstep : runLoop g ctx maxIter
                                          (n + 1) (some id) state visited
                                          sig bp tr
                                          = runLoop g ctx maxIter n
                                            (resolveNextNode g id
                                              (handler id { state1 with
                                                breakpoint := false }))
                                            (handler id { state1 with
                                              breakpoint := false })
                                            (visited ++ [id]) (sig + 2)
                                            (bp ++ [(id, { state1 with
                                              breakpoint := false })])
                                            (tr ++ [WorkflowStatus.paused,
                                              WorkflowStatus.running]) :=
                                        by simp [runLoop, hc, hfind,
                                          hexec, hprog, hb1, hm, hc2]
                                      obtain ⟨r, hr, hl, hm2, _⟩ := ih
                                        (resolveNextNode g id
                                          (handler id { state1 with
                                            breakpoint := false }))
                                        (handler id { state1 with
                                          breakpoint := false })
                                        (visited ++ [id]) (sig + 2)
                                        (bp ++ [(id, { state1 with
                                          breakpoint := false })])
                                        (tr ++ [WorkflowStatus.paused,
                                          WorkflowStatus.running])
                                      refine ⟨id :: r, ?_,
                                        (Nat.succ_le_succ hl),
                                        ?_, Or.inr ⟨id, r, rfl, rfl⟩⟩
                                      · rw [hstep, hr]; simp
                                      · intro x hx
                                        rcases List.mem_cons.mp hx
                                          with h | h
                                        · exact ⟨node, hnode.1,
                                            hnode.2.trans h.symm⟩
                                        · exact hm2 x h

/-- C9: every id of the returned nodesVisited names a node present in
graph.nodes (an id failing lookup is never appended to the trace), and
when the trace is non-empty its first element is graph.entryNode. -/
theorem run_visited_invariant (g : WorkflowGraph α)
    (s : WorkflowState α) (ctx : WorkflowContext α) :
    (∀ x ∈ (run g s ctx).result.nodesVisited,
      ∃ n, n ∈ g.nodes ∧ n.id = x)
    ∧ (∀ x rest, (run g s ctx).result.nodesVisited = x :: rest →
      x = g.entryNode) := by
  obtain ⟨rest, hr, _, hmem, hshape⟩ := runLoop_visited_master g ctx
    (g.maxIterations.getD DEFAULT_MAX_ITERATIONS)
    (g.maxIterations.getD DEFAULT_MAX_ITERATIONS) (some g.entryNode) s []
    0 [] [WorkflowStatus.running]
  have hrun : (run g s ctx).result.nodesVisited = rest := by
    simpa [run] using hr
  constructor
  · intro x hx
    rw [hrun] at hx
    exact hmem x hx
  · intro x r2 hx
    rw [hrun] at hx
    rcases hshape with h | ⟨c, r3, hrest, hcur⟩
    · rw [h] at hx
      exact absurd hx.symm (List.cons_ne_nil x r2)
    · rw [hrest] at hx
      injection hx with h1 _
      exact ((Option.some.inj hcur).trans h1).symm

/-- Witness for C9: in the throwing two-node graph the visited trace is
["a", "b"]; its member "b" names a node of the graph, and its head equals
the entry node. -/
theorem run_visited_invariant_witness :
    (∃ n, n ∈ gThrow.nodes ∧ n.id = "b")
    ∧ ("a" : WorkflowNodeId) = gThrow.entryNode := by
  constructor
  · exact (run_visited_invariant gThrow s0 ctx0).1 "b" (by decide)
  · exact (run_visited_invariant gThrow s0 ctx0).2 "a" ["b"] (by decide)

/-- C10: the run terminates — the loop is structurally bounded — having
executed at most the effective bound many iterations: the returned
nodesVisited has length at most graph.maxIterations when supplied and
DEFAULT_MAX_ITERATIONS (= 50) otherwise. -/
theorem run_terminates_bounded (g : WorkflowGraph α)
    (s : WorkflowState α) (ctx : WorkflowContext α) :
    (run g s ctx).result.nodesVisited.length
      ≤ g.maxIterations.getD DEFAULT_MAX_ITERATIONS := by
  obtain ⟨rest, hr, hlen, _, _⟩ := runLoop_visited_master g ctx
    (g.maxIterations.getD DEFAULT_MAX_ITERATIONS)
    (g.maxIterations.getD DEFAULT_MAX_ITERATIONS) (some g.entryNode) s []
    0 [] [WorkflowStatus.running]
  have hrun : (run g s ctx).result.nodesVisited = rest := by
    simpa [run] using hr
  rw [hrun]
  exact hlen

end FiWriter
